import Mathlib

/-!
Verification of the `arc_rw_lock` crate's core against its specification.

The development shallowly embeds the crate's lock word state machine
(`src/arc_rw_lock/src/inner/lock.rs`), the poison flag
(`src/arc_rw_lock/src/inner.rs`), the packed dual-counter refcount header
(`src/arc_rw_lock/src/arc.rs`), the mapped-handle operations
(`src/arc_rw_lock/src/lock.rs`) and the slice partitioning iterator
(`src/arc_rw_lock/src/slice.rs`, `src/arc_rw_lock/src/slice/iter_mut.rs`).

Machine integers are modelled as `Nat` with explicit reduction modulo the
word size where the source wraps (`fetch_sub`/`fetch_add` on atomics);
`unchecked` arithmetic that the source guards against overflow is modelled
as plain `Nat` arithmetic.  Atomic compare-and-swap retry loops are
collapsed to their success path: the model is the serialized semantics in
which each atomic read-modify-write of one operation completes without
interference, which is the level at which the specification states its
transition claims.  `process::abort()` and OS parking (`atomic_wait::wait`)
are explicit outcome constructors.
-/

set_option maxHeartbeats 1000000

namespace ArcRwLock

/-- The size of the 32-bit lock word's value space (`u32`), `2 ^ 32`. -/
def U32 : Nat := 4294967296

/-- The size of the refcount header's value space (`usize` on the 64-bit
targets the crate builds for), `2 ^ 64`. -/
def U64 : Nat := 18446744073709551616

namespace Lock

/-- `Lock::EMPTY = 0` (inner/lock.rs:12): the idle lock word. -/
def EMPTY : Nat := 0

/-- `Lock::WRITE_FLAG = 1` (inner/lock.rs:13): bit 0, the mode flag. -/
def WRITE_FLAG : Nat := 1

/-- `Lock::COUNTER_ONE = 1 << WRITE_FLAG.trailing_ones() = 1 << 1 = 2`
(inner/lock.rs:14): the holder-count unit. -/
def COUNTER_ONE : Nat := 2

/-- `Lock::COUNTER_MASK = !0 & !WRITE_FLAG` on `u32` (inner/lock.rs:15):
every bit of the word except the flag bit, `2 ^ 32 - 2`. -/
def COUNTER_MASK : Nat := 4294967294

/-- `Lock::COUNTER_MAX = COUNTER_MASK >> COUNTER_MASK.trailing_zeros()
= COUNTER_MASK >> 1 = 2 ^ 31 - 1` (inner/lock.rs:16). -/
def COUNTER_MAX : Nat := 2147483647

/-- `loaded & WRITE_FLAG`: the mode bit of a lock word.  Since
`WRITE_FLAG = 1`, masking with it is the parity `w % 2`. -/
def flagBit (w : Nat) : Nat := w % 2

/-- `loaded >> COUNTER_MASK.trailing_zeros() = loaded >> 1`: the holder
count of a lock word, i.e. `w / 2`. -/
def counter (w : Nat) : Nat := w / 2

/-- The word is in subfield-writer mode: flag bit set, nonzero count. -/
def writerMode (w : Nat) : Prop := flagBit w = WRITE_FLAG ∧ 1 ≤ counter w

/-- The word is in whole-reader mode: flag bit clear, nonzero count. -/
def readerMode (w : Nat) : Prop := flagBit w = 0 ∧ 1 ≤ counter w

/-- Outcome of one lock-word operation in the serialized model.
`acquired w` carries the post-acquisition word; `blocked` is the
`atomic_wait::wait` branch of the blocking paths, `wouldBlock` the
`return false` branch of the `try_*` paths, and `aborted` is
`process::abort()` on counter overflow. -/
inductive AcquireResult where
  | acquired (w : Nat)
  | blocked
  | wouldBlock
  | aborted
deriving DecidableEq, Repr

/-- `Lock::write` (inner/lock.rs:25-64).  Empty word: CAS to
`WRITE_FLAG | COUNTER_ONE = 3`.  Flag set below the counter maximum:
CAS to `loaded + COUNTER_ONE`; at the maximum: abort.  Flag clear and
nonzero (readers active): park the thread. -/
def write (w : Nat) : AcquireResult :=
  if w = EMPTY then
    .acquired 3
  else if flagBit w ≠ 0 then
    if counter w = COUNTER_MAX then .aborted
    else .acquired (w + COUNTER_ONE)
  else
    .blocked

/-- `Lock::try_write` (inner/lock.rs:68-106): identical transitions to
`write`, but the readers-active branch returns `false` instead of
parking. -/
def try_write (w : Nat) : AcquireResult :=
  if w = EMPTY then
    .acquired 3
  else if flagBit w ≠ 0 then
    if counter w = COUNTER_MAX then .aborted
    else .acquired (w + COUNTER_ONE)
  else
    .wouldBlock

/-- `Lock::read_whole` (inner/lock.rs:110-147).  Empty word: CAS to
`COUNTER_ONE = 2`.  Flag clear below the counter maximum: CAS to
`loaded + COUNTER_ONE`; at the maximum: abort.  Flag set (writers
active): park the thread. -/
def read_whole (w : Nat) : AcquireResult :=
  if w = EMPTY then
    .acquired COUNTER_ONE
  else if flagBit w = 0 then
    if counter w = COUNTER_MAX then .aborted
    else .acquired (w + COUNTER_ONE)
  else
    .blocked

/-- `Lock::try_read_whole` (inner/lock.rs:151-187): identical transitions
to `read_whole`, but the writers-active branch returns `false` instead
of parking. -/
def try_read_whole (w : Nat) : AcquireResult :=
  if w = EMPTY then
    .acquired COUNTER_ONE
  else if flagBit w = 0 then
    if counter w = COUNTER_MAX then .aborted
    else .acquired (w + COUNTER_ONE)
  else
    .wouldBlock

/-- `Lock::drop_writer_unchecked` (inner/lock.rs:195-234).  Returns
`some (word, wake)` on the defined paths; the counter-zero case is
`unreachable_unchecked`, modelled as `none`.  Counter one: CAS to
`EMPTY` and `wake_all`; counter above one: CAS to
`loaded - COUNTER_ONE`, no wake. -/
def drop_writer_unchecked (w : Nat) : Option (Nat × Bool) :=
  if counter w = 0 then none
  else if counter w = 1 then some (EMPTY, true)
  else some (w - COUNTER_ONE, false)

/-- `Lock::drop_whole_reader_unchecked` (inner/lock.rs:242-248): a single
wrapping `fetch_sub(COUNTER_ONE)` on the `u32` word; wakes all exactly
when the pre-decrement word equalled `COUNTER_ONE`. -/
def drop_whole_reader_unchecked (w : Nat) : Nat × Bool :=
  ((w + (U32 - COUNTER_ONE)) % U32, w == COUNTER_ONE)

end Lock

/-- The state of a `PoisonLock` (inner.rs:6-9): the lock word plus the
adjacent poison flag. -/
structure PState where
  word : Nat
  poison : Bool
deriving DecidableEq, Repr

namespace PoisonLock

/-- `PoisonLock::new` (inner.rs:13-18): unlocked, unpoisoned. -/
def new : PState := ⟨Lock.EMPTY, false⟩

/-- `PoisonLock::is_poisoned` (inner.rs:20-22). -/
def is_poisoned (s : PState) : Bool := s.poison

/-- `PoisonLock::poison` (inner.rs:24-26): store `true`. -/
def poison (s : PState) : PState := ⟨s.word, true⟩

/-- `PoisonLock::remove_poison` (inner.rs:28-30): store `false`. -/
def remove_poison (s : PState) : PState := ⟨s.word, false⟩

end PoisonLock

namespace MappedRwLock

/-- Outcome of a mapped-handle write acquisition.  `guard s` carries the
post-acquisition `PoisonLock` state observed while the guard lives. -/
inductive WriteResult where
  | guard (s : PState)
  | blocked
  | wouldBlockErr
  | aborted
deriving DecidableEq, Repr

/-- `MappedRwLock::write` (lock.rs:24-34): acquire via `Lock::write`,
then hand out a write guard; the poison flag is not consulted. -/
def write (s : PState) : WriteResult :=
  match Lock.write s.word with
  | .acquired w => .guard ⟨w, s.poison⟩
  | .blocked => .blocked
  | .wouldBlock => .wouldBlockErr
  | .aborted => .aborted

/-- `MappedRwLock::try_write` (lock.rs:36-49): acquire via
`Lock::try_write`; on failure return `Err(WouldBlock)`. -/
def try_write (s : PState) : WriteResult :=
  match Lock.try_write s.word with
  | .acquired w => .guard ⟨w, s.poison⟩
  | .blocked => .blocked
  | .wouldBlock => .wouldBlockErr
  | .aborted => .aborted

/-- Outcome of `MappedRwLock::read_whole`: `ok g` is `Ok(guard)`,
`poisonErr g` is `Err(PoisonError::new(guard))`; both carry the guard. -/
inductive ReadWholeResult where
  | ok (g : PState)
  | poisonErr (g : PState)
  | blocked
  | aborted
deriving DecidableEq, Repr

/-- `MappedRwLock::read_whole` (lock.rs:51-66): acquire via
`Lock::read_whole`, build the guard, then — as written in the source —
return `Ok(guard)` when `is_poisoned()` and `Err(PoisonError)` when not
poisoned. -/
def read_whole (s : PState) : ReadWholeResult :=
  match Lock.read_whole s.word with
  | .acquired w =>
      if PoisonLock.is_poisoned s then .ok ⟨w, s.poison⟩
      else .poisonErr ⟨w, s.poison⟩
  | .aborted => .aborted
  | _ => .blocked

/-- Outcome of `MappedRwLock::try_read_whole`: `ok g` is `Ok(guard)`,
`poisoned g` is `Err(TryLockError::Poisoned(PoisonError(guard)))`, and
`wouldBlockErr` is `Err(TryLockError::WouldBlock)`. -/
inductive TryReadWholeResult where
  | ok (g : PState)
  | poisoned (g : PState)
  | wouldBlockErr
  | aborted
deriving DecidableEq, Repr

/-- `MappedRwLock::try_read_whole` (lock.rs:68-86): acquire via
`Lock::try_read_whole`; if poisoned wrap the guard in the poisoned error,
otherwise return it plain; on acquisition failure return `WouldBlock`. -/
def try_read_whole (s : PState) : TryReadWholeResult :=
  match Lock.try_read_whole s.word with
  | .acquired w =>
      if PoisonLock.is_poisoned s then .poisoned ⟨w, s.poison⟩
      else .ok ⟨w, s.poison⟩
  | .aborted => .aborted
  | _ => .wouldBlockErr

end MappedRwLock

namespace MappedRwLockWriteGuard

/-- `impl Drop for MappedRwLockWriteGuard` (lock.rs:94-104): release the
writer slot via `Lock::drop_writer_unchecked`, then poison exactly when
the thread is unwinding (`std::thread::panicking()`, the `pk` argument).
Returns the post-drop state and the wake flag; `none` models the
undefined zero-counter case. -/
def drop (pk : Bool) (s : PState) : Option (PState × Bool) :=
  (Lock.drop_writer_unchecked s.word).map
    fun r => (⟨r.1, if pk then true else s.poison⟩, r.2)

end MappedRwLockWriteGuard

namespace MappedRwLockReadWholeGuard

/-- `impl Drop for MappedRwLockReadWholeGuard` (lock.rs:125-132): the
source calls `Lock::drop_writer_unchecked` — the writer-release routine —
and never touches the poison flag. -/
def drop (s : PState) : Option (PState × Bool) :=
  (Lock.drop_writer_unchecked s.word).map fun r => (⟨r.1, s.poison⟩, r.2)

end MappedRwLockReadWholeGuard

namespace InnerArc

/-- `InnerArc::SHARED_COUNTER_ONE = 1` (arc.rs:18): the shared half's
unit, occupying the low half of the header word. -/
def SHARED_COUNTER_ONE : Nat := 1

/-- `InnerArc::UNIQUE_COUNTER_ONE = 1 << usize::BITS / 2 = 2 ^ 32`
(arc.rs:19): the unique half's unit, the high half of the header. -/
def UNIQUE_COUNTER_ONE : Nat := 4294967296

/-- `InnerArc::SHARED_COUNTER_MAX` (arc.rs:20-28): `usize::BITS / 2 = 32`
one-bits, `2 ^ 32 - 1`. -/
def SHARED_COUNTER_MAX : Nat := 4294967295

/-- `InnerArc::UNIQUE_COUNTER_MAX = SHARED_COUNTER_MAX << 32`
(arc.rs:29). -/
def UNIQUE_COUNTER_MAX : Nat := SHARED_COUNTER_MAX * 4294967296

/-- The shared (low) half of a header word. -/
def sharedHalf (h : Nat) : Nat := h % 4294967296

/-- The unique (high) half of a header word. -/
def uniqueHalf (h : Nat) : Nat := h / 4294967296

/-- `InnerArc::decrement_shared_counter` (arc.rs:50-52): a wrapping
`fetch_sub(SHARED_COUNTER_ONE)`; reports `true` exactly when the
pre-decrement word equalled `SHARED_COUNTER_ONE`.  Returns
`(emptied, new header)`. -/
def decrement_shared_counter (h : Nat) : Bool × Nat :=
  (h == SHARED_COUNTER_ONE, (h + (U64 - SHARED_COUNTER_ONE)) % U64)

/-- `InnerArc::decrement_unique_counter` (arc.rs:54-56): a wrapping
`fetch_sub(UNIQUE_COUNTER_ONE)`; reports `true` exactly when the
pre-decrement word equalled `UNIQUE_COUNTER_ONE`. -/
def decrement_unique_counter (h : Nat) : Bool × Nat :=
  (h == UNIQUE_COUNTER_ONE, (h + (U64 - UNIQUE_COUNTER_ONE)) % U64)

/-- `InnerArc::increment_shared_counter` (arc.rs:58-60): a wrapping
`fetch_add(SHARED_COUNTER_ONE)`; reports `true` (the caller's abort
signal) exactly when the pre-increment word equalled
`SHARED_COUNTER_MAX`. -/
def increment_shared_counter (h : Nat) : Bool × Nat :=
  (h == SHARED_COUNTER_MAX, (h + SHARED_COUNTER_ONE) % U64)

/-- `InnerArc::increment_unique_counter` (arc.rs:62-64). -/
def increment_unique_counter (h : Nat) : Bool × Nat :=
  (h == UNIQUE_COUNTER_MAX, (h + UNIQUE_COUNTER_ONE) % U64)

end InnerArc

namespace ArcMappedRwLock

/-- `impl Drop for ArcMappedRwLock` (arc.rs:72-91): decrement the shared
half; deallocate (and drop the payload in place) exactly when the
decrement reported the header emptied.  Returns
`(new header, deallocated)`. -/
def drop (h : Nat) : Nat × Bool :=
  let r := InnerArc.decrement_shared_counter h
  (r.2, r.1)

end ArcMappedRwLock

namespace UniqueArcMappedRwLock

/-- `impl Drop for UniqueArcMappedRwLock` (arc.rs:104-123): decrement the
unique half; deallocate exactly when the decrement reported the header
emptied. -/
def drop (h : Nat) : Nat × Bool :=
  let r := InnerArc.decrement_unique_counter h
  (r.2, r.1)

end UniqueArcMappedRwLock

namespace UniqueArcElementRwLock

/-- `UniqueArcElementRwLock<T, A> = ArcMappedRwLock<T, [T], A>`
(lib.rs:50): the per-element wrapper yielded by the immutable iterator is
a type alias of the shared-category wrapper, so its `Drop` is
`ArcMappedRwLock`'s shared-half release. -/
def drop : Nat → Nat × Bool := ArcMappedRwLock.drop

end UniqueArcElementRwLock

namespace UniqueArcSliceRwLock

/-- Modelled from the spec: construction of a unique-category owning
wrapper over one fresh allocation.  The constructor's source
(`unique_arc.rs` / `alloc.rs`, listed in lib.rs) is not present under
`src/`; spec §3 (Lifecycle) says the header is "created with header = 1
unit in whichever category the first owner belongs to", here the unique
category. -/
def new_header : Nat := InnerArc.UNIQUE_COUNTER_ONE

/-- `UniqueArcSliceRwLock::iter` (slice.rs:13-28), header effect: forget
the wrapper (no `Drop`), `decrement_unique_counter` with the result
ignored, then `increment_shared_counter`; `process::abort()` (modelled
`none`) when the increment reports the shared maximum. -/
def iter (h : Nat) : Option Nat :=
  let h1 := (InnerArc.decrement_unique_counter h).2
  let r := InnerArc.increment_shared_counter h1
  if r.1 then none else some r.2

end UniqueArcSliceRwLock

namespace Iter

/-- The immutable per-element iterator's state (slice/iter_mut.rs:11-14):
the remaining subfield's raw parts `(ptr, len)` — `start` is the element
index the data pointer designates — together with the allocation's
header word. -/
structure State where
  start : Nat
  len : Nat
  header : Nat
deriving DecidableEq, Repr

/-- Outcome of one `next`/`next_back` call: `yieldElem i s` yields the
element wrapper over element `i` with iterator state `s` remaining;
`aborted` is `process::abort()` on shared-counter overflow. -/
inductive NextResult where
  | yieldElem (elem : Nat) (s : State)
  | done (s : State)
  | aborted
deriving DecidableEq, Repr

/-- `impl Iterator for Iter`, `next` (slice/iter_mut.rs:40-71): if the
remainder is non-empty, advance the subfield pointer past the first
element, increment the shared half (abort at its maximum), and yield a
`UniqueArcElementRwLock` over that first element. -/
def next (s : State) : NextResult :=
  if 0 < s.len then
    let r := InnerArc.increment_shared_counter s.header
    if r.1 then .aborted
    else .yieldElem s.start ⟨s.start + 1, s.len - 1, r.2⟩
  else
    .done s

/-- `impl DoubleEndedIterator for Iter`, `next_back`
(slice/iter_mut.rs:75-104): if the remainder is non-empty, shorten it by
one from the back, increment the shared half (abort at its maximum), and
yield the wrapper over the last element. -/
def next_back (s : State) : NextResult :=
  if 0 < s.len then
    let r := InnerArc.increment_shared_counter s.header
    if r.1 then .aborted
    else .yieldElem (s.start + (s.len - 1)) ⟨s.start, s.len - 1, r.2⟩
  else
    .done s

/-- `impl Drop for Iter` (slice/iter_mut.rs:16-35): decrement the
*unique* half; deallocate exactly when the decrement reported the header
emptied. -/
def drop (h : Nat) : Nat × Bool :=
  let r := InnerArc.decrement_unique_counter h
  (r.2, r.1)

end Iter

/-- One transition of the lock word under the operations the spec's state
machine names: the four acquisition paths (successful CAS) and the two
release routines under their documented preconditions. -/
inductive Step : Nat → Nat → Prop where
  | write_acq {w w'} : Lock.write w = .acquired w' → Step w w'
  | try_write_acq {w w'} : Lock.try_write w = .acquired w' → Step w w'
  | read_whole_acq {w w'} : Lock.read_whole w = .acquired w' → Step w w'
  | try_read_whole_acq {w w'} : Lock.try_read_whole w = .acquired w' → Step w w'
  | release_writer {w w' wake} : 1 ≤ Lock.counter w →
      Lock.drop_writer_unchecked w = some (w', wake) → Step w w'
  | release_reader {w w' wake} : 1 ≤ Lock.counter w → Lock.flagBit w = 0 →
      Lock.drop_whole_reader_unchecked w = (w', wake) → Step w w'

/-- Lock words reachable from the initial `EMPTY` word. -/
inductive Reachable : Nat → Prop where
  | init : Reachable Lock.EMPTY
  | step {w w'} : Reachable w → Step w w' → Reachable w'

/-! ## Characterization lemmas for the lock-word operations -/

theorem Lock.write_acquired_iff {w w' : Nat} :
    Lock.write w = .acquired w' ↔
      (w = 0 ∧ w' = 3) ∨
      (w % 2 = 1 ∧ w / 2 ≠ Lock.COUNTER_MAX ∧ w' = w + 2) := by
  unfold Lock.write Lock.EMPTY Lock.flagBit Lock.counter Lock.COUNTER_ONE
  split_ifs <;> simp_all <;> omega

theorem Lock.try_write_acquired_iff {w w' : Nat} :
    Lock.try_write w = .acquired w' ↔
      (w = 0 ∧ w' = 3) ∨
      (w % 2 = 1 ∧ w / 2 ≠ Lock.COUNTER_MAX ∧ w' = w + 2) := by
  unfold Lock.try_write Lock.EMPTY Lock.flagBit Lock.counter Lock.COUNTER_ONE
  split_ifs <;> simp_all <;> omega

theorem Lock.read_whole_acquired_iff {w w' : Nat} :
    Lock.read_whole w = .acquired w' ↔
      (w = 0 ∧ w' = 2) ∨
      (w ≠ 0 ∧ w % 2 = 0 ∧ w / 2 ≠ Lock.COUNTER_MAX ∧ w' = w + 2) := by
  unfold Lock.read_whole Lock.EMPTY Lock.flagBit Lock.counter Lock.COUNTER_ONE
  split_ifs <;> simp_all <;> omega

theorem Lock.try_read_whole_acquired_iff {w w' : Nat} :
    Lock.try_read_whole w = .acquired w' ↔
      (w = 0 ∧ w' = 2) ∨
      (w ≠ 0 ∧ w % 2 = 0 ∧ w / 2 ≠ Lock.COUNTER_MAX ∧ w' = w + 2) := by
  unfold Lock.try_read_whole Lock.EMPTY Lock.flagBit Lock.counter Lock.COUNTER_ONE
  split_ifs <;> simp_all <;> omega

theorem Lock.try_read_whole_wouldBlock_iff {w : Nat} :
    Lock.try_read_whole w = .wouldBlock ↔ w ≠ 0 ∧ w % 2 = 1 := by
  unfold Lock.try_read_whole Lock.EMPTY Lock.flagBit Lock.counter Lock.COUNTER_ONE
  split_ifs <;> simp_all

theorem Lock.try_read_whole_ne_blocked {w : Nat} :
    Lock.try_read_whole w ≠ .blocked := by
  unfold Lock.try_read_whole Lock.EMPTY Lock.flagBit Lock.counter Lock.COUNTER_ONE
  split_ifs <;> simp_all

theorem Lock.drop_writer_unchecked_eq {w : Nat} (hc : 1 ≤ Lock.counter w) :
    Lock.drop_writer_unchecked w =
      if Lock.counter w = 1 then some (0, true) else some (w - 2, false) := by
  unfold Lock.drop_writer_unchecked Lock.EMPTY Lock.COUNTER_ONE
  unfold Lock.counter at hc ⊢
  split_ifs <;> simp_all

theorem Lock.drop_whole_reader_unchecked_word {w : Nat} (hw : w < U32)
    (hc : 1 ≤ Lock.counter w) :
    (Lock.drop_whole_reader_unchecked w).1 = w - 2 := by
  unfold Lock.drop_whole_reader_unchecked Lock.COUNTER_ONE U32
  unfold Lock.counter at hc
  unfold U32 at hw
  have h2 : 2 ≤ w := by omega
  have : w + (4294967296 - 2) = (w - 2) + 4294967296 := by omega
  simp only [this, Nat.add_mod_right]
  omega

theorem Lock.write_aborted_iff {w : Nat} :
    Lock.write w = .aborted ↔ (w ≠ 0 ∧ w % 2 = 1 ∧ w / 2 = Lock.COUNTER_MAX) := by
  unfold Lock.write Lock.EMPTY Lock.flagBit Lock.counter Lock.COUNTER_ONE
  split_ifs <;> simp_all

theorem Lock.try_write_aborted_iff {w : Nat} :
    Lock.try_write w = .aborted ↔ (w ≠ 0 ∧ w % 2 = 1 ∧ w / 2 = Lock.COUNTER_MAX) := by
  unfold Lock.try_write Lock.EMPTY Lock.flagBit Lock.counter Lock.COUNTER_ONE
  split_ifs <;> simp_all

theorem Lock.read_whole_aborted_iff {w : Nat} :
    Lock.read_whole w = .aborted ↔ (w ≠ 0 ∧ w % 2 = 0 ∧ w / 2 = Lock.COUNTER_MAX) := by
  unfold Lock.read_whole Lock.EMPTY Lock.flagBit Lock.counter Lock.COUNTER_ONE
  split_ifs <;> simp_all

theorem Lock.try_read_whole_aborted_iff {w : Nat} :
    Lock.try_read_whole w = .aborted ↔ (w ≠ 0 ∧ w % 2 = 0 ∧ w / 2 = Lock.COUNTER_MAX) := by
  unfold Lock.try_read_whole Lock.EMPTY Lock.flagBit Lock.counter Lock.COUNTER_ONE
  split_ifs <;> simp_all

/-! ## The reachable-state invariant of the lock word -/

theorem reachable_inv {w : Nat} (h : Reachable w) :
    w < U32 ∧ (Lock.counter w = 0 → w = 0) := by
  induction h with
  | init => exact ⟨by decide, fun _ => rfl⟩
  | @step v w hr hs ih =>
    rcases hs with h | h | h | h | ⟨hc, h⟩ | ⟨hc, hf, h⟩
    · rcases Lock.write_acquired_iff.mp h with ⟨_, rfl⟩ | ⟨_, hmax, rfl⟩
      · exact ⟨by decide, by decide⟩
      · unfold Lock.counter Lock.COUNTER_MAX at *
        unfold U32 at *
        exact ⟨by omega, by omega⟩
    · rcases Lock.try_write_acquired_iff.mp h with ⟨_, rfl⟩ | ⟨_, hmax, rfl⟩
      · exact ⟨by decide, by decide⟩
      · unfold Lock.counter Lock.COUNTER_MAX at *
        unfold U32 at *
        exact ⟨by omega, by omega⟩
    · rcases Lock.read_whole_acquired_iff.mp h with ⟨_, rfl⟩ | ⟨_, _, hmax, rfl⟩
      · exact ⟨by decide, by decide⟩
      · unfold Lock.counter Lock.COUNTER_MAX at *
        unfold U32 at *
        exact ⟨by omega, by omega⟩
    · rcases Lock.try_read_whole_acquired_iff.mp h with ⟨_, rfl⟩ | ⟨_, _, hmax, rfl⟩
      · exact ⟨by decide, by decide⟩
      · unfold Lock.counter Lock.COUNTER_MAX at *
        unfold U32 at *
        exact ⟨by omega, by omega⟩
    · rw [Lock.drop_writer_unchecked_eq hc] at h
      unfold Lock.counter at *
      unfold U32 at *
      split_ifs at h <;> simp_all <;> omega
    · have hword := Lock.drop_whole_reader_unchecked_word ih.1 hc
      rw [h] at hword
      simp only at hword
      subst hword
      unfold Lock.counter Lock.flagBit at *
      unfold U32 at *
      exact ⟨by omega, by omega⟩

/-- The word `3` (`Writing(1)`) is reachable: one `write` acquisition from
the initial word. -/
theorem reachable_three : Reachable 3 :=
  .step .init (.write_acq (by decide))

/-! ## Claim theorems -/

/-- C3: on every lock word reachable from `Idle` via the acquire and
release operations, a nonzero holder count puts the word in exactly one
of writer mode or reader mode, determined by the mode bit; a zero count
is exactly the `Idle` word; and no operation changes the mode bit while
the count stays nonzero. -/
theorem c3_no_mode_mixing {w : Nat} (hr : Reachable w) :
    (Lock.counter w = 0 → w = 0) ∧
    (1 ≤ Lock.counter w → Xor' (Lock.writerMode w) (Lock.readerMode w)) ∧
    (∀ w', Step w w' → 1 ≤ Lock.counter w → 1 ≤ Lock.counter w' →
      Lock.flagBit w' = Lock.flagBit w) := by
  refine ⟨(reachable_inv hr).2, fun hc => ?_, fun w' hs hc hc' => ?_⟩
  · unfold Lock.writerMode Lock.readerMode Lock.flagBit Lock.WRITE_FLAG
      Lock.counter at *
    unfold Xor'
    omega
  · have hw := (reachable_inv hr).1
    unfold U32 at hw
    rcases hs with h | h | h | h | ⟨hcw, h⟩ | ⟨hcw, hf, h⟩
    · rcases Lock.write_acquired_iff.mp h with ⟨rfl, rfl⟩ | ⟨_, _, rfl⟩ <;>
        unfold Lock.counter Lock.flagBit at * <;> omega
    · rcases Lock.try_write_acquired_iff.mp h with ⟨rfl, rfl⟩ | ⟨_, _, rfl⟩ <;>
        unfold Lock.counter Lock.flagBit at * <;> omega
    · rcases Lock.read_whole_acquired_iff.mp h with ⟨rfl, rfl⟩ | ⟨_, _, _, rfl⟩ <;>
        unfold Lock.counter Lock.flagBit at * <;> omega
    · rcases Lock.try_read_whole_acquired_iff.mp h with ⟨rfl, rfl⟩ | ⟨_, _, _, rfl⟩ <;>
        unfold Lock.counter Lock.flagBit at * <;> omega
    · rw [Lock.drop_writer_unchecked_eq hcw] at h
      split_ifs at h with h1 <;> simp only [Option.some.injEq, Prod.mk.injEq] at h <;>
        rcases h with ⟨rfl, -⟩ <;> unfold Lock.counter Lock.flagBit at * <;> omega
    · have hword := Lock.drop_whole_reader_unchecked_word (by unfold U32; omega) hcw
      rw [h] at hword
      simp only at hword
      subst hword
      unfold Lock.counter Lock.flagBit at *
      omega

/-- C3 witness: `3 = Writing(1)` is reachable and is in exactly one mode. -/
theorem c3_witness : Xor' (Lock.writerMode 3) (Lock.readerMode 3) :=
  (c3_no_mode_mixing reachable_three).2.1 (by decide)

/-- C4 counterexample: the 32-bit lock word's counter maximum is
`2 ^ 31 - 1` (the count occupies all 31 bits above the mode flag), not
`2 ^ 16 - 1` as the claim states. -/
theorem c4_counterexample : Lock.COUNTER_MAX ≠ 2 ^ 16 - 1 ∧
    Lock.COUNTER_MAX = 2 ^ 31 - 1 := by decide

/-- C4 (amended): the holder count is bounded by
`COUNTER_MAX = 2 ^ 31 - 1`; every acquisition path, on finding the count
at the maximum, aborts the process before incrementing; and a successful
acquisition increments the count by exactly one and keeps the word in
range — it never wraps. -/
theorem c4_overflow_abort (w : Nat) (hw : w < U32) :
    (Lock.counter w = Lock.COUNTER_MAX →
      (w % 2 = 1 → Lock.write w = .aborted ∧ Lock.try_write w = .aborted) ∧
      (w % 2 = 0 ∧ w ≠ 0 →
        Lock.read_whole w = .aborted ∧ Lock.try_read_whole w = .aborted)) ∧
    (∀ w', (Lock.write w = .acquired w' ∨ Lock.try_write w = .acquired w' ∨
        Lock.read_whole w = .acquired w' ∨ Lock.try_read_whole w = .acquired w') →
      Lock.counter w' = Lock.counter w + 1 ∧
      Lock.counter w' ≤ Lock.COUNTER_MAX ∧ w' < U32) := by
  unfold U32 at hw
  constructor
  · intro hmax
    unfold Lock.counter Lock.COUNTER_MAX at hmax
    refine ⟨fun hodd => ?_, fun ⟨heven, hne⟩ => ?_⟩
    · rw [Lock.write_aborted_iff, Lock.try_write_aborted_iff]
      unfold Lock.COUNTER_MAX
      omega
    · rw [Lock.read_whole_aborted_iff, Lock.try_read_whole_aborted_iff]
      unfold Lock.COUNTER_MAX
      omega
  · intro w' hacq
    have : (w = 0 ∧ (w' = 3 ∨ w' = 2)) ∨
        (w % 2 ≤ 1 ∧ w / 2 ≠ Lock.COUNTER_MAX ∧ w' = w + 2) := by
      rcases hacq with h | h | h | h
      · rcases Lock.write_acquired_iff.mp h with ⟨h1, h2⟩ | ⟨h1, h2, h3⟩
        · exact .inl ⟨h1, .inl h2⟩
        · exact .inr ⟨by omega, h2, h3⟩
      · rcases Lock.try_write_acquired_iff.mp h with ⟨h1, h2⟩ | ⟨h1, h2, h3⟩
        · exact .inl ⟨h1, .inl h2⟩
        · exact .inr ⟨by omega, h2, h3⟩
      · rcases Lock.read_whole_acquired_iff.mp h with ⟨h1, h2⟩ | ⟨h1, h2, h3, h4⟩
        · exact .inl ⟨h1, .inr h2⟩
        · exact .inr ⟨by omega, h3, h4⟩
      · rcases Lock.try_read_whole_acquired_iff.mp h with ⟨h1, h2⟩ | ⟨h1, h2, h3, h4⟩
        · exact .inl ⟨h1, .inr h2⟩
        · exact .inr ⟨by omega, h3, h4⟩
    unfold Lock.counter Lock.COUNTER_MAX U32 at *
    omega

/-- C4 witness: at the all-ones word `2 ^ 32 - 1` (writer mode, count at
the maximum), `write` aborts. -/
theorem c4_witness : Lock.write 4294967295 = .aborted :=
  (((c4_overflow_abort 4294967295 (by decide)).1 (by decide)).1 (by decide)).1

/-- C5: either refcount half's decrement reports the header emptied if
and only if the pre-decrement header word equals exactly that half's
unit value, equivalently that half held exactly one unit and the other
half zero; and each owning wrapper's `Drop` deallocates exactly under
its decrement's report. -/
theorem c5_dealloc_trigger (h : Nat) :
    ((InnerArc.decrement_shared_counter h).1 = true ↔
      h = InnerArc.SHARED_COUNTER_ONE) ∧
    (h = InnerArc.SHARED_COUNTER_ONE ↔
      (InnerArc.sharedHalf h = 1 ∧ InnerArc.uniqueHalf h = 0)) ∧
    ((InnerArc.decrement_unique_counter h).1 = true ↔
      h = InnerArc.UNIQUE_COUNTER_ONE) ∧
    (h = InnerArc.UNIQUE_COUNTER_ONE ↔
      (InnerArc.sharedHalf h = 0 ∧ InnerArc.uniqueHalf h = 1)) ∧
    (ArcMappedRwLock.drop h).2 = (InnerArc.decrement_shared_counter h).1 ∧
    (UniqueArcMappedRwLock.drop h).2 = (InnerArc.decrement_unique_counter h).1 := by
  unfold InnerArc.decrement_shared_counter InnerArc.decrement_unique_counter
    InnerArc.sharedHalf InnerArc.uniqueHalf InnerArc.SHARED_COUNTER_ONE
    InnerArc.UNIQUE_COUNTER_ONE ArcMappedRwLock.drop UniqueArcMappedRwLock.drop
  simp only [beq_iff_eq]
  refine ⟨trivial, by omega, trivial, by omega, rfl, rfl⟩

/-- C7: releasing a writer with count at least one: with count above one
it decrements the count by one unit without waking anyone and preserves
the mode bit; with count exactly one it sets the word to `Idle`
(`EMPTY`: count zero, flag clear) and wakes all waiters. -/
theorem c7_release_writer (w : Nat) (hc : 1 ≤ Lock.counter w) :
    (Lock.counter w = 1 →
      Lock.drop_writer_unchecked w = some (Lock.EMPTY, true)) ∧
    (1 < Lock.counter w →
      Lock.drop_writer_unchecked w = some (w - Lock.COUNTER_ONE, false) ∧
      Lock.counter (w - Lock.COUNTER_ONE) = Lock.counter w - 1 ∧
      Lock.flagBit (w - Lock.COUNTER_ONE) = Lock.flagBit w) := by
  rw [Lock.drop_writer_unchecked_eq hc]
  unfold Lock.counter Lock.flagBit Lock.EMPTY Lock.COUNTER_ONE at *
  split_ifs with h1
  · exact ⟨fun _ => rfl, fun h2 => absurd h1 (by omega)⟩
  · exact ⟨fun h2 => absurd h2 h1, fun _ => ⟨rfl, by omega, by omega⟩⟩

/-- C7 witness: releasing the sole writer of `3 = Writing(1)` empties the
word and wakes all waiters. -/
theorem c7_witness : Lock.drop_writer_unchecked 3 = some (Lock.EMPTY, true) :=
  (c7_release_writer 3 (by decide)).1 (by decide)

/-- C10: dropping a whole-read guard performs exactly the writer-release
routine `Lock::drop_writer_unchecked` — the identical lock-word update as
dropping a write guard — decrementing the count by one unit and, on the
last holder, setting the word to `Idle` and waking all waiters; the
dedicated reader-release routine `Lock::drop_whole_reader_unchecked`
(one `fetch_sub`) is a genuinely different routine, and no guard invokes
it. -/
theorem c10_read_guard_uses_writer_release (s : PState)
    (hc : 1 ≤ Lock.counter s.word) :
    MappedRwLockReadWholeGuard.drop s =
      (Lock.drop_writer_unchecked s.word).map (fun r => (⟨r.1, s.poison⟩, r.2)) ∧
    (MappedRwLockReadWholeGuard.drop s).map (fun r => r.1.word) =
      (MappedRwLockWriteGuard.drop false s).map (fun r => r.1.word) ∧
    (Lock.counter s.word = 1 →
      Lock.drop_writer_unchecked s.word = some (0, true)) ∧
    (1 < Lock.counter s.word →
      Lock.drop_writer_unchecked s.word = some (s.word - Lock.COUNTER_ONE, false)) ∧
    (∃ v, 1 ≤ Lock.counter v ∧
      (Lock.drop_writer_unchecked v).map Prod.fst ≠
        some (Lock.drop_whole_reader_unchecked v).1) := by
  refine ⟨rfl, ?_, ?_, ?_, ⟨3, by decide, by decide⟩⟩
  · cases h : Lock.drop_writer_unchecked s.word <;>
      simp [MappedRwLockReadWholeGuard.drop, MappedRwLockWriteGuard.drop, h]
  · intro h1
    rw [Lock.drop_writer_unchecked_eq hc]
    simp [h1, Lock.EMPTY]
  · intro h1
    rw [Lock.drop_writer_unchecked_eq hc]
    unfold Lock.COUNTER_ONE
    split_ifs with h2
    · omega
    · rfl

/-- C10 witness: on `3 = Writing(1)` with no poison, the whole-read guard
drop and the write guard drop produce the same lock word. -/
theorem c10_witness :
    (MappedRwLockReadWholeGuard.drop ⟨3, false⟩).map (fun r => r.1.word) =
      (MappedRwLockWriteGuard.drop false ⟨3, false⟩).map (fun r => r.1.word) :=
  (c10_read_guard_uses_writer_release ⟨3, false⟩ (by decide)).2.1

/-- C2, evaluated at the failing inputs: as written, `read_whole` on a
fresh (unpoisoned) lock returns the `Err(PoisonError(guard))` variant,
and on a poisoned lock returns the plain `Ok(guard)` variant — the exact
inverse of the claimed (and `try_read_whole`'s) mapping.  In both cases
the guard is handed out after acquisition (word `2 = Reading(1)`). -/
theorem c2_read_whole_poison_inverted :
    MappedRwLock.read_whole ⟨Lock.EMPTY, false⟩ = .poisonErr ⟨2, false⟩ ∧
    MappedRwLock.read_whole ⟨Lock.EMPTY, true⟩ = .ok ⟨2, true⟩ := by decide

/-- C6: on every reachable lock word, `try_read_whole` returns the
would-block error exactly when the word is in writer mode (flag set,
nonzero count); and whenever the inner acquisition succeeds, a set
poison flag yields the poisoned variant carrying the acquired guard
while a clear flag yields the plain `Ok` guard. -/
theorem c6_try_read_whole (s : PState) (hr : Reachable s.word) :
    (MappedRwLock.try_read_whole s = .wouldBlockErr ↔ Lock.writerMode s.word) ∧
    (∀ w', Lock.try_read_whole s.word = .acquired w' →
      (s.poison = true → MappedRwLock.try_read_whole s = .poisoned ⟨w', true⟩) ∧
      (s.poison = false → MappedRwLock.try_read_whole s = .ok ⟨w', false⟩)) := by
  have hinv := reachable_inv hr
  constructor
  · rcases h : Lock.try_read_whole s.word with w' | _ | _ | _
    · have hw := Lock.try_read_whole_acquired_iff.mp h
      have hne : MappedRwLock.try_read_whole s ≠ .wouldBlockErr := by
        simp only [MappedRwLock.try_read_whole, h, PoisonLock.is_poisoned]
        split_ifs <;> simp
      refine ⟨fun hA => absurd hA hne, fun hWM => absurd hWM ?_⟩
      unfold Lock.writerMode Lock.flagBit Lock.counter Lock.WRITE_FLAG
      unfold Lock.COUNTER_MAX at hw
      omega
    · exact absurd h Lock.try_read_whole_ne_blocked
    · have hw := Lock.try_read_whole_wouldBlock_iff.mp h
      have heq : MappedRwLock.try_read_whole s = .wouldBlockErr := by
        simp [MappedRwLock.try_read_whole, h]
      refine ⟨fun _ => ?_, fun _ => heq⟩
      unfold Lock.writerMode Lock.flagBit Lock.counter Lock.WRITE_FLAG
      unfold Lock.counter at hinv
      omega
    · have hw := Lock.try_read_whole_aborted_iff.mp h
      have hne : MappedRwLock.try_read_whole s ≠ .wouldBlockErr := by
        simp [MappedRwLock.try_read_whole, h]
      refine ⟨fun hA => absurd hA hne, fun hWM => absurd hWM ?_⟩
      unfold Lock.writerMode Lock.flagBit Lock.WRITE_FLAG
      omega
  · intro w' h
    simp only [MappedRwLock.try_read_whole, h, PoisonLock.is_poisoned]
    constructor <;> intro hp <;> simp [hp]

/-- C6 witness: on the reachable writer-mode word `3 = Writing(1)`,
`try_read_whole` reports would-block without suspending. -/
theorem c6_witness : MappedRwLock.try_read_whole ⟨3, false⟩ = .wouldBlockErr :=
  (c6_try_read_whole ⟨3, false⟩ reachable_three).1.mpr ⟨by decide, by decide⟩

/-- C8: while the remainder is non-empty, `next` (resp. `next_back`)
peels exactly the first (resp. last) element off the remainder,
increments the shared half of the header by one unit (unique half
untouched), and yields the wrapper over exactly that element; on an
empty remainder both yield nothing; and the yielded wrapper type
`UniqueArcElementRwLock` is the alias of `ArcMappedRwLock` (lib.rs:50),
so dropping a yielded element decrements the shared half. -/
theorem c8_immutable_iter (s : Iter.State) (hh : s.header < U64)
    (hmax : InnerArc.sharedHalf s.header < 4294967295) :
    (0 < s.len →
      Iter.next s = .yieldElem s.start ⟨s.start + 1, s.len - 1, s.header + 1⟩ ∧
      Iter.next_back s =
        .yieldElem (s.start + (s.len - 1)) ⟨s.start, s.len - 1, s.header + 1⟩ ∧
      InnerArc.sharedHalf (s.header + 1) = InnerArc.sharedHalf s.header + 1 ∧
      InnerArc.uniqueHalf (s.header + 1) = InnerArc.uniqueHalf s.header) ∧
    (s.len = 0 → Iter.next s = .done s ∧ Iter.next_back s = .done s) ∧
    (∀ h, UniqueArcElementRwLock.drop h = ArcMappedRwLock.drop h ∧
      (UniqueArcElementRwLock.drop h).1 = (InnerArc.decrement_shared_counter h).2 ∧
      (UniqueArcElementRwLock.drop h).2 = (InnerArc.decrement_shared_counter h).1) := by
  unfold InnerArc.sharedHalf at hmax
  unfold InnerArc.sharedHalf InnerArc.uniqueHalf
  have hne : s.header ≠ 4294967295 := by omega
  have hmod : (s.header + 1) % U64 = s.header + 1 := by
    unfold U64 at *
    omega
  refine ⟨fun hlen => ?_, fun hlen => ?_, fun h => ⟨rfl, rfl, rfl⟩⟩
  · refine ⟨?_, ?_, by omega, by omega⟩ <;>
      simp [Iter.next, Iter.next_back, InnerArc.increment_shared_counter,
        InnerArc.SHARED_COUNTER_MAX, InnerArc.SHARED_COUNTER_ONE, hlen, hne, hmod]
  · unfold Iter.next Iter.next_back
    simp [hlen]

/-- C8 witness: from a two-element remainder starting at element 0 with
header one shared unit, `next` yields element 0, leaves the remainder
`[1, 2)`, and raises the header to two shared units. -/
theorem c8_witness : Iter.next ⟨0, 2, 1⟩ = .yieldElem 0 ⟨1, 1, 2⟩ :=
  (((c8_immutable_iter ⟨0, 2, 1⟩ (by decide) (by decide)).1) (by decide)).1

/-- C9: the poison flag is set exactly by a write-guard drop during
unwinding (a normal write-guard drop and the whole-read-guard drop
preserve it), every acquisition hands out its guard with the flag
unchanged and no read path modifies it, and only the explicit
`remove_poison` clears it while `poison` sets it. -/
theorem c9_poison_discipline (s : PState) (hc : 1 ≤ Lock.counter s.word) :
    ((MappedRwLockWriteGuard.drop true s).map (fun r => r.1.poison) = some true) ∧
    ((MappedRwLockWriteGuard.drop false s).map (fun r => r.1.poison) =
      some s.poison) ∧
    ((MappedRwLockReadWholeGuard.drop s).map (fun r => r.1.poison) =
      some s.poison) ∧
    (∀ g, MappedRwLock.write s = .guard g → g.poison = s.poison) ∧
    (∀ g, MappedRwLock.try_write s = .guard g → g.poison = s.poison) ∧
    (∀ g, MappedRwLock.read_whole s = .ok g ∨
        MappedRwLock.read_whole s = .poisonErr g → g.poison = s.poison) ∧
    (∀ g, MappedRwLock.try_read_whole s = .ok g ∨
        MappedRwLock.try_read_whole s = .poisoned g → g.poison = s.poison) ∧
    (PoisonLock.remove_poison s).poison = false ∧
    (PoisonLock.poison s).poison = true := by
  rw [MappedRwLockWriteGuard.drop, MappedRwLockWriteGuard.drop,
    MappedRwLockReadWholeGuard.drop, Lock.drop_writer_unchecked_eq hc]
  refine ⟨?_, ?_, ?_, ?_, ?_, ?_, ?_, rfl, rfl⟩
  · split_ifs <;> simp_all
  · split_ifs <;> simp_all
  · split_ifs <;> simp_all
  · intro g hg
    unfold MappedRwLock.write at hg
    rcases h : Lock.write s.word with w' | _ | _ | _ <;> rw [h] at hg <;>
      simp_all <;> rw [← hg]
  · intro g hg
    unfold MappedRwLock.try_write at hg
    rcases h : Lock.try_write s.word with w' | _ | _ | _ <;> rw [h] at hg <;>
      simp_all <;> rw [← hg]
  · intro g hg
    unfold MappedRwLock.read_whole PoisonLock.is_poisoned at hg
    rcases h : Lock.read_whole s.word with w' | _ | _ | _ <;> rw [h] at hg <;>
      rcases hg with hg | hg <;> split_ifs at hg <;> simp_all <;> rw [← hg]
  · intro g hg
    unfold MappedRwLock.try_read_whole PoisonLock.is_poisoned at hg
    rcases h : Lock.try_read_whole s.word with w' | _ | _ | _ <;> rw [h] at hg <;>
      rcases hg with hg | hg <;> split_ifs at hg <;> simp_all <;> rw [← hg]

/-- C9 witness: dropping the write guard of `3 = Writing(1)` while
unwinding sets the poison flag. -/
theorem c9_witness :
    (MappedRwLockWriteGuard.drop true ⟨3, false⟩).map (fun r => r.1.poison) =
      some true :=
  (c9_poison_discipline ⟨3, false⟩ (by decide)).1

/-- C1, evaluated at a violating sequence: construct a unique slice
wrapper over one fresh allocation (header = one unique unit, `2 ^ 32`),
consume it with `iter()` — which converts the unit to one *shared* unit,
header `1` — then drop the iterator.  The iterator's `Drop` subtracts a
*unique* unit from the shared-unit header, underflowing it to
`2 ^ 64 - 2 ^ 32 + 1` and reporting "not emptied", so the payload
destructor and the deallocation run zero times instead of exactly
once. -/
theorem c1_iter_drop_never_deallocates :
    UniqueArcSliceRwLock.iter UniqueArcSliceRwLock.new_header = some 1 ∧
    Iter.drop 1 = (18446744069414584321, false) ∧
    (Iter.drop 1).1 ≠ 0 := by decide

end ArcRwLock
